import Mathlib

/-!
Verification of the TrustClaw scoring and deduplication logic.

Shallow embedding conventions:
* Python floats are modelled as `ℚ`.
* `dict.get(key, default)` reads of externally supplied JSON are modelled by
  `Option` fields together with `Option.getD`.
* Network calls and the external LLM are inputs to the embedded functions
  (an `Except String String` for the chat-completion call, and the fetched
  JSON lists for the scanners).
-/

namespace TrustClaw

/-- The token-data dictionary consumed by `Brain.score_opportunity` and
`Brain.analyze_token` (src/brain.py).  Only the fields the embedded code
reads are modelled; each is `Option`al because the Python code accesses them
with `dict.get(key, default)`. -/
structure TokenData where
  address : Option String := none
  name : Option String := none
  symbol : Option String := none
  liquidity_usd : Option ℚ := none
  volume_24h : Option ℚ := none
  h1_change : Option ℚ := none
  market_cap : Option ℚ := none
deriving DecidableEq

/-- Liquidity tier of `Brain.score_opportunity`, src/brain.py lines 126-133. -/
def liquidityScore (liquidity : ℚ) : ℚ :=
  if liquidity > 100000 then 25
  else if liquidity > 50000 then 20
  else if liquidity > 10000 then 15
  else if liquidity > 5000 then 10
  else 0

/-- Volume tier of `Brain.score_opportunity`, src/brain.py lines 136-143. -/
def volumeScore (volume : ℚ) : ℚ :=
  if volume > 500000 then 25
  else if volume > 100000 then 20
  else if volume > 50000 then 15
  else if volume > 10000 then 10
  else 0

/-- Momentum tier of `Brain.score_opportunity`, src/brain.py lines 146-151
(`10 <= h1_change <= 100`, `elif 5 <= h1_change <= 200`, `elif h1_change > 200`). -/
def momentumScore (h1_change : ℚ) : ℚ :=
  if 10 ≤ h1_change ∧ h1_change ≤ 100 then 25
  else if 5 ≤ h1_change ∧ h1_change ≤ 200 then 15
  else if h1_change > 200 then 5
  else 0

/-- Market-cap tier of `Brain.score_opportunity`, src/brain.py lines 154-161. -/
def marketCapScore (market_cap : ℚ) : ℚ :=
  if 10000 ≤ market_cap ∧ market_cap ≤ 500000 then 25
  else if 500000 < market_cap ∧ market_cap ≤ 5000000 then 20
  else if 5000000 < market_cap ∧ market_cap ≤ 50000000 then 15
  else if market_cap > 50000000 then 10
  else 0

/-- Embedding of `Brain.score_opportunity` (src/brain.py lines 116-163): the four inputs are
read with `token_data.get(key, 0) or 0` (modelled by `Option.getD 0`; the
extra `or 0` maps the falsy value `0.0` to `0`, the identity on `ℚ`), the four
tier contributions are summed, and the result is `min(score, 100)`. -/
def score_opportunity (token_data : TokenData) : ℚ :=
  let liquidity := token_data.liquidity_usd.getD 0
  let volume := token_data.volume_24h.getD 0
  let h1_change := token_data.h1_change.getD 0
  let market_cap := token_data.market_cap.getD 0
  min (liquidityScore liquidity + volumeScore volume +
       momentumScore h1_change + marketCapScore market_cap) 100

/-- Spec-side restatement of the momentum tier with disjoint ranges, written
from the words of the spec for the refinement claim about first-match-wins
semantics: `[10,100] → 25`; `[5,10) ∪ (100,200] → 15`; `> 200 → 5`; else 0. -/
def momentumTierSpec (h1_change : ℚ) : ℚ :=
  if 10 ≤ h1_change ∧ h1_change ≤ 100 then 25
  else if (5 ≤ h1_change ∧ h1_change < 10) ∨ (100 < h1_change ∧ h1_change ≤ 200) then 15
  else if 200 < h1_change then 5
  else 0

/-- The analysis/Signal dictionary produced by `Brain.analyze_token`
(src/brain.py lines 49-80): the schema fields requested from the model, plus
`token_address`, `token_name` and `analyzed_at`, which the code adds after a
successful parse.  Fields absent from a given dictionary are `none` (the two
failure dictionaries carry only `signal`, `confidence` and `reasoning`). -/
structure Analysis where
  signal : String
  confidence : ℤ
  risk_level : Option String := none
  reasoning : String
  entry_price : Option String := none
  target : Option String := none
  stop_loss : Option String := none
  time_horizon : Option String := none
  token_address : Option String := none
  token_name : Option String := none
  analyzed_at : Option String := none
deriving DecidableEq

/-- Markdown code-fence handling of `Brain.analyze_token`, src/brain.py lines
62-65: if the (already stripped) response contains three backticks followed by
the letters j-s-o-n, keep the text between that marker and the next fence and
strip it; otherwise, if it contains a plain fence, keep the text between the
first and second fence and strip it; otherwise leave the text unchanged.
Python `sep in s` is `2 ≤ (s.splitOn sep).length`, `s.split(sep)[1]` is
`(s.splitOn sep).getD 1 ""` (the guard guarantees the index exists), and
`s.split(sep)[0]` is `headD`. -/
def stripFences (result_text : String) : String :=
  let fenceJson := "```json"
  let fence := "```"
  let jsonParts := result_text.splitOn fenceJson
  if 2 ≤ jsonParts.length then
    (((jsonParts.getD 1 "").splitOn fence).headD "").trim
  else
    let parts := result_text.splitOn fence
    if 2 ≤ parts.length then
      (((parts.getD 1 "").splitOn fence).headD "").trim
    else result_text

/-- The sentinel returned on a JSON parse failure, src/brain.py line 77. -/
def skipParseFail : Analysis :=
  { signal := "SKIP", confidence := 0,
    reasoning := "Analysis failed - could not parse LLM response" }

/-- The sentinel returned on any other exception, src/brain.py line 80. -/
def skipError (e : String) : Analysis :=
  { signal := "SKIP", confidence := 0, reasoning := "Analysis error: " ++ e }

/-- Embedding of `Brain.analyze_token` (src/brain.py lines 20-80).  The external pieces are
inputs: `llmResponse` is the outcome of the chat-completion call (`Except.error`
when the call raises, `Except.ok` with the response text otherwise), and
`parseJson` abstracts `json.loads` restricted to JSON objects (it returns
`none` when `json.loads` raises `JSONDecodeError`, or when the decoded value
is not an object so the subsequent key assignments raise; both are caught and
both yield a SKIP sentinel — the model collapses them onto the parse-failure
sentinel). `now` stands for the wall-clock timestamp string.  The function is
total: every failure is mapped to a sentinel value, never propagated.
Returns the produced analysis and the updated `signal_history` list; the
history is appended to only on the successful path (line 72). -/
def analyze_token (parseJson : String → Option Analysis) (now : String)
    (signal_history : List Analysis) (token_data : TokenData)
    (llmResponse : Except String String) : Analysis × List Analysis :=
  match llmResponse with
  | .error e => (skipError e, signal_history)
  | .ok content =>
    let result_text := stripFences content.trim
    match parseJson result_text with
    | none => (skipParseFail, signal_history)
    | some analysis =>
      let analysis := { analysis with
        token_address := some (token_data.address.getD ""),
        token_name := some (token_data.name.getD (token_data.symbol.getD "Unknown")),
        analyzed_at := some now }
      (analysis, signal_history ++ [analysis])

/-- A sequence of `analyze_token` calls threading the `signal_history` state,
as the Brain instance does over its lifetime. -/
def runAnalyses (parseJson : String → Option Analysis) (now : String)
    (signal_history : List Analysis)
    (calls : List (TokenData × Except String String)) : List Analysis :=
  calls.foldl (fun st c => (analyze_token parseJson now st c.1 c.2).2) signal_history

/-- Whether one call takes the successful path of `analyze_token` (the LLM
call returned and its fence-stripped text parsed). -/
def isParsedCall (parseJson : String → Option Analysis)
    (c : TokenData × Except String String) : Bool :=
  match c.2 with
  | .error _ => false
  | .ok content => (parseJson (stripFences content.trim)).isSome

/-- A token dictionary as returned by the DexScreener endpoints (profiles,
boosts, trending), src/scanners/dex_scanner.py.  Only the fields the scanner
reads are modelled; nested reads such as `token.get("priceChange", {}).get("h1", 0)`
are flattened into one `Option` field (an absent inner dictionary makes all
its fields absent). -/
structure DexToken where
  chainId : Option String := none
  tokenAddress : Option String := none
  name : Option String := none
  symbol : Option String := none
  priceUsd : Option String := none
  priceChange_h1 : Option ℚ := none
  priceChange_h6 : Option ℚ := none
  priceChange_h24 : Option ℚ := none
  volume_h24 : Option ℚ := none
  liquidity_usd : Option ℚ := none
  marketCap : Option ℚ := none
deriving DecidableEq

/-- The token address as the scanner reads it: `token.get("tokenAddress", "")`. -/
def addrOf (token : DexToken) : String := token.tokenAddress.getD ""

/-- The loop of `DexScanner.get_new_pairs` (src/scanners/dex_scanner.py lines
44-52) over the concatenated profile and boost listings, threading the
class-level `SEEN_PAIRS` set: skip tokens whose chainId is not "solana";
for each remaining token, if its address is non-empty and unseen, add the
address to the seen set and emit the token. -/
def getNewPairsLoop : Finset String → List DexToken → List DexToken × Finset String
  | seen, [] => ([], seen)
  | seen, token :: rest =>
    if token.chainId ≠ some "solana" then getNewPairsLoop seen rest
    else if addrOf token ≠ "" ∧ addrOf token ∉ seen then
      let step := getNewPairsLoop (insert (addrOf token) seen) rest
      (token :: step.1, step.2)
    else getNewPairsLoop seen rest

/-- Embedding of `DexScanner.get_new_pairs`: the two fetched listings are concatenated
(`all_tokens`) and fed through the dedup loop. -/
def get_new_pairs (seen : Finset String) (profiles boosted : List DexToken) :
    List DexToken × Finset String :=
  getNewPairsLoop seen (profiles ++ boosted)

/-- A sequence of `get_new_pairs` calls threading the `SEEN_PAIRS` state,
one entry per call, each carrying the concatenated listings that call saw. -/
def runGetNewPairs : Finset String → List (List DexToken) → List (List DexToken) × Finset String
  | seen, [] => ([], seen)
  | seen, batch :: batches =>
    let step := getNewPairsLoop seen batch
    let rest := runGetNewPairs step.2 batches
    (step.1 :: rest.1, rest.2)

/-- The pump dictionary built by `DexScanner.scan_for_pumps`,
src/scanners/dex_scanner.py lines 97-109. -/
structure Pump where
  address : String
  name : String
  symbol : String
  price_usd : String
  h1_change : ℚ
  h6_change : ℚ
  h24_change : ℚ
  volume_24h : ℚ
  liquidity_usd : ℚ
  market_cap : ℚ
  url : String
deriving DecidableEq

/-- Construction of one pump entry from a trending token,
src/scanners/dex_scanner.py lines 97-109 (`h1`/`h6` use `get(..., 0) or 0`,
modelled by `getD 0`). -/
def mkPump (token : DexToken) : Pump :=
  { address := token.tokenAddress.getD "",
    name := token.name.getD "Unknown",
    symbol := token.symbol.getD "???",
    price_usd := token.priceUsd.getD "0",
    h1_change := token.priceChange_h1.getD 0,
    h6_change := token.priceChange_h6.getD 0,
    h24_change := token.priceChange_h24.getD 0,
    volume_24h := token.volume_h24.getD 0,
    liquidity_usd := token.liquidity_usd.getD 0,
    market_cap := token.marketCap.getD 0,
    url := "https://dexscreener.com/solana/" ++ token.tokenAddress.getD "" }

/-- The pump filter condition, src/scanners/dex_scanner.py line 96:
`abs(h1_change) >= min_pump_pct or abs(h6_change) >= min_pump_pct * 1.5`. -/
def isPump (minPumpPct : ℚ) (token : DexToken) : Bool :=
  decide (minPumpPct ≤ |token.priceChange_h1.getD 0|) ||
  decide (minPumpPct * 1.5 ≤ |token.priceChange_h6.getD 0|)

/-- Threshold resolution at src/scanners/dex_scanner.py line 87:
`min_pump_pct = min_pump_pct or Config.PUMP_THRESHOLD_PCT` replaces both a
missing argument (`None`) and the falsy value `0` by the configured default. -/
def effectivePumpThreshold (pumpThresholdCfg : ℚ) : Option ℚ → ℚ
  | none => pumpThresholdCfg
  | some v => if v = 0 then pumpThresholdCfg else v

/-- Sort order used by `scan_for_pumps`: descending absolute h1 change
(`sorted(pumps, key=lambda x: abs(x.get("h1_change", 0)), reverse=True)`). -/
def pumpOrder (a b : Pump) : Prop := |b.h1_change| ≤ |a.h1_change|

instance : DecidableRel pumpOrder := fun a b =>
  inferInstanceAs (Decidable (|b.h1_change| ≤ |a.h1_change|))

instance : IsTotal Pump pumpOrder :=
  ⟨fun a b => (le_total |b.h1_change| |a.h1_change|).imp id id⟩

instance : IsTrans Pump pumpOrder :=
  ⟨fun _ _ _ h1 h2 => le_trans h2 h1⟩

/-- Embedding of `DexScanner.scan_for_pumps` (src/scanners/dex_scanner.py lines 85-113):
filter the trending list by the pump condition, build one entry per hit, and
return them sorted descending by absolute h1 change (the Python `sorted` builtin is the
stable sort; so is insertion sort with this total preorder). -/
def scan_for_pumps (pumpThresholdCfg : ℚ) (minPumpPct : Option ℚ)
    (trending : List DexToken) : List Pump :=
  let m := effectivePumpThreshold pumpThresholdCfg minPumpPct
  List.insertionSort pumpOrder ((trending.filter (isPump m)).map mkPump)

/-- The swap event inside a Helius enhanced transaction,
src/scanners/whale_scanner.py lines 58-64.  `nativeInput`/`nativeOutput` are
read as `swap.get("nativeInput", {}).get("amount", 0)`, flattened here to one
`Option ℚ` field (an absent inner dictionary makes the amount absent); the
token legs are uninterpreted payload carried to the alert record unchanged,
modelled as raw strings. -/
structure SwapEvent where
  nativeInput_amount : Option ℚ := none
  nativeOutput_amount : Option ℚ := none
  tokenInputs : List String := []
  tokenOutputs : List String := []
deriving DecidableEq

/-- One transaction from the Helius fetch, src/scanners/whale_scanner.py.
`events_swap` is `tx.get("events", {}).get("swap", {})`, with `none` covering
both an absent and an empty (falsy) swap dictionary. -/
structure HeliusTxn where
  signature : Option String := none
  events_swap : Option SwapEvent := none
  timestamp : Option ℚ := none
deriving DecidableEq

/-- The signature as the scanner reads it: `tx.get("signature", "")`. -/
def sigOf (tx : HeliusTxn) : String := tx.signature.getD ""

/-- The approximate SOL value of a swap, src/scanners/whale_scanner.py lines
67-69: `(native_input.get("amount", 0) + native_output.get("amount", 0)) / 1e9`. -/
def solAmountOf (swap : SwapEvent) : ℚ :=
  (swap.nativeInput_amount.getD 0 + swap.nativeOutput_amount.getD 0) / 1000000000

/-- Round half to even at the integers; models the rounding mode of the Python
`round` builtin. -/
def roundHalfEven (q : ℚ) : ℤ :=
  if q - ⌊q⌋ < 1/2 then ⌊q⌋
  else if 1/2 < q - ⌊q⌋ then ⌊q⌋ + 1
  else if Even ⌊q⌋ then ⌊q⌋ else ⌊q⌋ + 1

/-- The Python call `round(x, 2)` on the exact rational value. -/
def pyRound2 (q : ℚ) : ℚ := (roundHalfEven (q * 100) : ℚ) / 100

/-- The whale-alert dictionary built at src/scanners/whale_scanner.py lines
72-81. -/
structure SwapRecord where
  signature : String
  wallet : String
  type : String
  sol_amount : ℚ
  token_inputs : List String
  token_outputs : List String
  timestamp : ℚ
  url : String
deriving DecidableEq

/-- Construction of one whale-alert entry from a transaction and its swap
event, src/scanners/whale_scanner.py lines 72-81. -/
def mkSwapRecord (wallet : String) (tx : HeliusTxn) (swap : SwapEvent)
    (amount_sol : ℚ) : SwapRecord :=
  { signature := sigOf tx, wallet := wallet, type := "swap",
    sol_amount := pyRound2 amount_sol,
    token_inputs := swap.tokenInputs, token_outputs := swap.tokenOutputs,
    timestamp := tx.timestamp.getD 0,
    url := "https://solscan.io/tx/" ++ sigOf tx }

/-- The per-transaction loop of `WhaleScanner.detect_large_swaps`,
src/scanners/whale_scanner.py lines 52-81: skip transactions whose signature
is in the retained set of the wallet, skip transactions without a (non-empty) swap
event, and keep a swap exactly when `amount_sol * 150 >= Config.WHALE_MIN_USD`
(150 is the fixed rough SOL price). -/
def detectSwapsLoop (whaleMinUsd : ℚ) (seen : Finset String) (wallet : String) :
    List HeliusTxn → List SwapRecord
  | [] => []
  | tx :: rest =>
    if sigOf tx ∈ seen then detectSwapsLoop whaleMinUsd seen wallet rest
    else
      match tx.events_swap with
      | none => detectSwapsLoop whaleMinUsd seen wallet rest
      | some swap =>
        if solAmountOf swap * 150 ≥ whaleMinUsd then
          mkSwapRecord wallet tx swap (solAmountOf swap) ::
            detectSwapsLoop whaleMinUsd seen wallet rest
        else detectSwapsLoop whaleMinUsd seen wallet rest

/-- Embedding of `WhaleScanner.detect_large_swaps` (src/scanners/whale_scanner.py lines
47-87).  The fetch result is an input (`txns`; a fetch error yields `[]`, see
`get_wallet_transactions`).  `last_signatures` is the per-wallet dedup map,
read with `.get(wallet, set())` (modelled as a total function defaulting to
`∅`); after a non-empty fetch it is replaced at this wallet by the signatures
of the first 5 fetched transactions (line 84-85); an empty fetch leaves it
untouched. -/
def detect_large_swaps (whaleMinUsd : ℚ) (last_signatures : String → Finset String)
    (wallet : String) (txns : List HeliusTxn) :
    List SwapRecord × (String → Finset String) :=
  let swaps := detectSwapsLoop whaleMinUsd (last_signatures wallet) wallet txns
  if txns.isEmpty then (swaps, last_signatures)
  else (swaps, fun w => if w = wallet
    then ((txns.take 5).map sigOf).toFinset
    else last_signatures w)

lemma liquidityScore_mem (l : ℚ) : 0 ≤ liquidityScore l ∧ liquidityScore l ≤ 25 := by
  unfold liquidityScore; split_ifs <;> norm_num

lemma volumeScore_mem (v : ℚ) : 0 ≤ volumeScore v ∧ volumeScore v ≤ 25 := by
  unfold volumeScore; split_ifs <;> norm_num

lemma momentumScore_mem (h : ℚ) : 0 ≤ momentumScore h ∧ momentumScore h ≤ 25 := by
  unfold momentumScore; split_ifs <;> norm_num

lemma marketCapScore_mem (m : ℚ) : 0 ≤ marketCapScore m ∧ marketCapScore m ≤ 25 := by
  unfold marketCapScore; split_ifs <;> norm_num

/-- Concrete snapshot sitting exactly on the claimed boundaries:
liquidity = 100000, volume = 500000, h1 change = 10, market cap = 10000. -/
def boundaryToken : TokenData :=
  { liquidity_usd := some 100000, volume_24h := some 500000,
    h1_change := some 10, market_cap := some 10000 }

/-- C1 counterexample: it is not the case that every snapshot with
liquidity ≥ 100000, volume ≥ 500000, h1 change in [10,100] and market cap in
[10000,500000] scores 100: at the boundary snapshot (liquidity exactly
100000, volume exactly 500000), the strict comparisons in the code put both the
liquidity and the volume tier at 20, giving a score of 90. -/
theorem score_boundary_not_100 :
    ¬ (∀ td : TokenData,
        100000 ≤ td.liquidity_usd.getD 0 →
        500000 ≤ td.volume_24h.getD 0 →
        10 ≤ td.h1_change.getD 0 → td.h1_change.getD 0 ≤ 100 →
        10000 ≤ td.market_cap.getD 0 → td.market_cap.getD 0 ≤ 500000 →
        score_opportunity td = 100) := by
  intro h
  have := h boundaryToken (by norm_num [boundaryToken]) (by norm_num [boundaryToken])
    (by norm_num [boundaryToken]) (by norm_num [boundaryToken])
    (by norm_num [boundaryToken]) (by norm_num [boundaryToken])
  norm_num [score_opportunity, liquidityScore, volumeScore, momentumScore,
    marketCapScore, boundaryToken] at this

/-- C1 (amended): for every snapshot with liquidity strictly above 100000,
volume strictly above 500000, h1 change in [10,100], and market cap in
[10000,500000], `score_opportunity` returns exactly 100. -/
theorem score_opportunity_full_marks (td : TokenData)
    (hl : 100000 < td.liquidity_usd.getD 0)
    (hv : 500000 < td.volume_24h.getD 0)
    (hm1 : 10 ≤ td.h1_change.getD 0) (hm2 : td.h1_change.getD 0 ≤ 100)
    (hc1 : 10000 ≤ td.market_cap.getD 0) (hc2 : td.market_cap.getD 0 ≤ 500000) :
    score_opportunity td = 100 := by
  simp only [score_opportunity, liquidityScore, volumeScore, momentumScore, marketCapScore]
  rw [if_pos hl, if_pos hv, if_pos ⟨hm1, hm2⟩, if_pos ⟨hc1, hc2⟩]
  norm_num

/-- Witness for C1 (amended) at a concrete snapshot. -/
theorem score_opportunity_full_marks_witness :
    score_opportunity
      { liquidity_usd := some 200000, volume_24h := some 600000,
        h1_change := some 50, market_cap := some 100000 } = 100 :=
  score_opportunity_full_marks _ (by norm_num) (by norm_num) (by norm_num)
    (by norm_num) (by norm_num) (by norm_num)

/-- C3: for every snapshot with arbitrary rational inputs (including negative
liquidity, volume or market cap, which fall through every tier and contribute
0), `score_opportunity` returns a value in [0, 100]. -/
theorem score_opportunity_bounded (td : TokenData) :
    0 ≤ score_opportunity td ∧ score_opportunity td ≤ 100 := by
  unfold score_opportunity
  constructor
  · refine le_min ?_ (by norm_num)
    have h1 := (liquidityScore_mem (td.liquidity_usd.getD 0)).1
    have h2 := (volumeScore_mem (td.volume_24h.getD 0)).1
    have h3 := (momentumScore_mem (td.h1_change.getD 0)).1
    have h4 := (marketCapScore_mem (td.market_cap.getD 0)).1
    linarith
  · exact min_le_right _ _

/-- C4: the momentum tier of `score_opportunity` resolves the overlapping
ranges first-match-wins, in the stated order: it agrees everywhere with the
disjoint-range spec function (25 on [10,100] even though [5,200] also
matches; 15 on [5,10) ∪ (100,200]; 5 above 200; 0 otherwise, in particular
on every negative h1 change). -/
theorem momentumScore_eq_spec (h1_change : ℚ) :
    momentumScore h1_change = momentumTierSpec h1_change := by
  unfold momentumScore momentumTierSpec
  by_cases hA : 10 ≤ h1_change ∧ h1_change ≤ 100
  · rw [if_pos hA, if_pos hA]
  · rw [if_neg hA, if_neg hA]
    by_cases hB : 5 ≤ h1_change ∧ h1_change ≤ 200
    · rw [if_pos hB]
      rcases lt_or_le h1_change 10 with h | h
      · rw [if_pos (Or.inl ⟨hB.1, h⟩)]
      · have h100 : 100 < h1_change := by
          by_contra hc; push_neg at hc; exact hA ⟨h, hc⟩
        rw [if_pos (Or.inr ⟨h100, hB.2⟩)]
    · have hC : ¬ ((5 ≤ h1_change ∧ h1_change < 10) ∨
          (100 < h1_change ∧ h1_change ≤ 200)) := by
        rintro (⟨c1, c2⟩ | ⟨c1, c2⟩)
        · exact hB ⟨c1, by linarith⟩
        · exact hB ⟨by linarith, c2⟩
      rw [if_neg hB, if_neg hC]

/-- A trending token carrying only an h1 price change, for the concrete pump
scenario of the spec. -/
def trendTok (h1 : ℚ) : DexToken :=
  { tokenAddress := some "tok", priceChange_h1 := some h1 }

/-- A well-formed new-pair listing entry on the Solana chain. -/
def solTok : DexToken :=
  { chainId := some "solana", tokenAddress := some "A" }

lemma getNewPairsLoop_seen_eq (l : List DexToken) (seen : Finset String) :
    (getNewPairsLoop seen l).2
      = seen ∪ ((getNewPairsLoop seen l).1.map addrOf).toFinset := by
  induction l generalizing seen with
  | nil => simp [getNewPairsLoop]
  | cons token rest ih =>
    simp only [getNewPairsLoop]
    split_ifs with h1 h2
    · exact ih seen
    · rw [ih (insert (addrOf token) seen)]
      ext x
      simp only [List.map_cons, List.toFinset_cons, Finset.mem_union, Finset.mem_insert]
      tauto
    · exact ih seen

lemma getNewPairsLoop_returned (l : List DexToken) :
    ∀ seen : Finset String, ∀ token ∈ (getNewPairsLoop seen l).1,
      addrOf token ≠ "" ∧ addrOf token ∉ seen := by
  induction l with
  | nil => intro seen token ht; simp [getNewPairsLoop] at ht
  | cons token rest ih =>
    intro seen t ht
    simp only [getNewPairsLoop] at ht
    split_ifs at ht with h1 h2
    · exact ih seen t ht
    · rcases List.mem_cons.mp ht with rfl | ht'
      · exact h2
      · have h := ih (insert (addrOf token) seen) t ht'
        exact ⟨h.1, fun hc => h.2 (Finset.mem_insert_of_mem hc)⟩
    · exact ih seen t ht

lemma getNewPairsLoop_not_reemitted (l : List DexToken) (a : String) :
    ∀ seen : Finset String, a ∈ seen →
      ∀ token ∈ (getNewPairsLoop seen l).1, addrOf token ≠ a := by
  intro seen ha token ht he
  exact (getNewPairsLoop_returned l seen token ht).2 (by rw [he]; exact ha)

lemma runGetNewPairs_not_reemitted (batches : List (List DexToken)) (a : String) :
    ∀ seen : Finset String, a ∈ seen →
      ∀ out ∈ (runGetNewPairs seen batches).1, ∀ token ∈ out, addrOf token ≠ a := by
  induction batches with
  | nil => intro seen _ out hout; simp [runGetNewPairs] at hout
  | cons b bs ih =>
    intro seen ha out hout
    simp only [runGetNewPairs] at hout
    rcases List.mem_cons.mp hout with rfl | h'
    · exact getNewPairsLoop_not_reemitted b a seen ha
    · refine ih (getNewPairsLoop seen b).2 ?_ out h'
      rw [getNewPairsLoop_seen_eq]
      exact Finset.mem_union_left _ ha

/-- C8: the `SEEN_PAIRS` set is an at-most-once gate.  For any starting set
and listing: (1) every token returned by `get_new_pairs` has a non-empty
address, was unseen on entry, and its address is in the updated seen set;
(2) the set only grows; (3) once an address is in the seen set, no token with
that address is returned by any later sequence of calls; (4) the answer of
the gate for any address not among the returned addresses is
unchanged — marking one address does not affect a different one. -/
theorem seen_pairs_at_most_once (seen : Finset String) (l : List DexToken) :
    (∀ token ∈ (getNewPairsLoop seen l).1,
        addrOf token ≠ "" ∧ addrOf token ∉ seen ∧
        addrOf token ∈ (getNewPairsLoop seen l).2) ∧
    seen ⊆ (getNewPairsLoop seen l).2 ∧
    (∀ a ∈ (getNewPairsLoop seen l).2, ∀ batches : List (List DexToken),
        ∀ out ∈ (runGetNewPairs (getNewPairsLoop seen l).2 batches).1,
        ∀ token ∈ out, addrOf token ≠ a) ∧
    (∀ a : String, a ∉ (getNewPairsLoop seen l).1.map addrOf →
        (a ∈ (getNewPairsLoop seen l).2 ↔ a ∈ seen)) := by
  refine ⟨?_, ?_, ?_, ?_⟩
  · intro token ht
    obtain ⟨hne, hunseen⟩ := getNewPairsLoop_returned l seen token ht
    refine ⟨hne, hunseen, ?_⟩
    rw [getNewPairsLoop_seen_eq]
    exact Finset.mem_union_right _
      (List.mem_toFinset.mpr (List.mem_map_of_mem addrOf ht))
  · rw [getNewPairsLoop_seen_eq]
    exact Finset.subset_union_left
  · intro a ha batches
    exact runGetNewPairs_not_reemitted batches a _ ha
  · intro a hnot
    rw [getNewPairsLoop_seen_eq]
    simp only [Finset.mem_union, List.mem_toFinset]
    exact ⟨fun h => h.resolve_right fun hc => hnot hc, Or.inl⟩

/-- Witness for C8: the token returned by a concrete call is recorded in the
seen set. -/
theorem seen_pairs_at_most_once_witness :
    addrOf solTok ≠ "" ∧ addrOf solTok ∉ (∅ : Finset String) ∧
      addrOf solTok ∈ (getNewPairsLoop ∅ [solTok]).2 :=
  (seen_pairs_at_most_once ∅ [solTok]).1 solTok (by decide)

/-- C5: for every trending list and every threshold (the threshold in effect
after the `or`-default resolution of line 87), `scan_for_pumps` returns
exactly the entries with `|h1| ≥ threshold` or `|h6| ≥ 1.5 * threshold`
(as a permutation of the filtered, mapped list), sorted descending by
absolute h1 change; and on the concrete scenario with h1 changes
[5, 60, -80, 200] and threshold 50 it returns the tokens with |h1| 200, 80,
60 in that order, excluding the 5% token. -/
theorem scan_for_pumps_correct (pumpThresholdCfg : ℚ) (minPumpPct : Option ℚ)
    (trending : List DexToken) :
    ((scan_for_pumps pumpThresholdCfg minPumpPct trending).Perm
        ((trending.filter fun tok =>
            decide (effectivePumpThreshold pumpThresholdCfg minPumpPct ≤
              |tok.priceChange_h1.getD 0|) ||
            decide (effectivePumpThreshold pumpThresholdCfg minPumpPct * 1.5 ≤
              |tok.priceChange_h6.getD 0|)).map mkPump)) ∧
    List.Sorted pumpOrder (scan_for_pumps pumpThresholdCfg minPumpPct trending) ∧
    scan_for_pumps 50 (some 50) [trendTok 5, trendTok 60, trendTok (-80), trendTok 200]
      = [mkPump (trendTok 200), mkPump (trendTok (-80)), mkPump (trendTok 60)] := by
  refine ⟨?_, ?_, ?_⟩
  · exact List.perm_insertionSort pumpOrder _
  · exact List.sorted_insertionSort pumpOrder _
  · simp only [scan_for_pumps, effectivePumpThreshold, isPump, trendTok, mkPump,
      List.filter, List.map, List.insertionSort, List.orderedInsert, pumpOrder,
      Option.getD]
    norm_num [pumpOrder, mkPump]

/-- A swap whose native input and output lamports sum to 1e9 (1 SOL). -/
def oneSolSwap : SwapEvent :=
  { nativeInput_amount := some 600000000, nativeOutput_amount := some 400000000 }

/-- A synthetic transaction carrying a 1-SOL swap. -/
def oneSolTx : HeliusTxn :=
  { signature := some "s1", events_swap := some oneSolSwap }

lemma detectSwapsLoop_sig_mem (whaleMinUsd : ℚ) (wallet : String)
    (seen : Finset String) :
    ∀ txns : List HeliusTxn,
      ∀ r ∈ detectSwapsLoop whaleMinUsd seen wallet txns,
        r.signature ∈ txns.map sigOf := by
  intro txns
  induction txns with
  | nil => simp [detectSwapsLoop]
  | cons tx rest ih =>
    intro r hr
    simp only [detectSwapsLoop] at hr
    simp only [List.map_cons, List.mem_cons]
    split_ifs at hr with h1
    · exact Or.inr (ih r hr)
    · cases heq : tx.events_swap with
      | none => simp only [heq] at hr; exact Or.inr (ih r hr)
      | some swap =>
        simp only [heq] at hr
        split_ifs at hr with hc
        · rcases List.mem_cons.mp hr with rfl | hr'
          · exact Or.inl rfl
          · exact Or.inr (ih r hr')
        · exact Or.inr (ih r hr)

lemma detectSwapsLoop_mem_iff (whaleMinUsd : ℚ) (wallet : String)
    (seen : Finset String) :
    ∀ (txns : List HeliusTxn) (tx : HeliusTxn) (swap : SwapEvent),
      (txns.map sigOf).Nodup → tx ∈ txns → tx.events_swap = some swap →
      sigOf tx ∉ seen →
      (mkSwapRecord wallet tx swap (solAmountOf swap)
          ∈ detectSwapsLoop whaleMinUsd seen wallet txns
        ↔ whaleMinUsd ≤ solAmountOf swap * 150) := by
  intro txns
  induction txns with
  | nil => intro tx swap _ htx; simp at htx
  | cons t rest ih =>
    intro tx swap hnd htx hsw hsig
    simp only [List.map_cons, List.nodup_cons] at hnd
    rcases List.mem_cons.mp htx with rfl | htx'
    · simp only [detectSwapsLoop, if_neg hsig, hsw]
      split_ifs with hc
      · exact ⟨fun _ => hc, fun _ => List.mem_cons_self _ _⟩
      · constructor
        · intro hmem
          exact absurd (detectSwapsLoop_sig_mem whaleMinUsd wallet seen rest _ hmem) hnd.1
        · intro hge; exact absurd hge hc
    · have hx : sigOf tx ∈ rest.map sigOf := List.mem_map_of_mem sigOf htx'
      have hne : sigOf t ≠ sigOf tx := fun he => hnd.1 (he ▸ hx)
      simp only [detectSwapsLoop]
      split_ifs with h1
      · exact ih tx swap hnd.2 htx' hsw hsig
      · cases heq : t.events_swap with
        | none => exact ih tx swap hnd.2 htx' hsw hsig
        | some sw =>
          dsimp only
          split_ifs with hc
          · rw [List.mem_cons]
            have hrec : mkSwapRecord wallet tx swap (solAmountOf swap)
                ≠ mkSwapRecord wallet t sw (solAmountOf sw) := by
              intro he
              exact hne (congrArg SwapRecord.signature he).symm
            constructor
            · rintro (h | h)
              · exact absurd h hrec
              · exact (ih tx swap hnd.2 htx' hsw hsig).mp h
            · intro h
              exact Or.inr ((ih tx swap hnd.2 htx' hsw hsig).mpr h)
          · exact ih tx swap hnd.2 htx' hsw hsig

lemma detect_large_swaps_fst (whaleMinUsd : ℚ) (st : String → Finset String)
    (wallet : String) (txns : List HeliusTxn) :
    (detect_large_swaps whaleMinUsd st wallet txns).1
      = detectSwapsLoop whaleMinUsd (st wallet) wallet txns := by
  simp only [detect_large_swaps]
  split <;> rfl

/-- C6: for every fetched transaction list (with the fetched signatures
distinct, as on chain), every transaction in it carrying a swap event and not
deduplicated away: its alert record is in the result exactly when the
swap USD value — SOL amount `(native input + native output) / 1e9` times the fixed
price constant 150 — is at or above the configured floor. -/
theorem detect_large_swaps_usd_floor (whaleMinUsd : ℚ)
    (st : String → Finset String) (wallet : String) (txns : List HeliusTxn)
    (tx : HeliusTxn) (swap : SwapEvent)
    (hnd : (txns.map sigOf).Nodup) (htx : tx ∈ txns)
    (hsw : tx.events_swap = some swap) (hsig : sigOf tx ∉ st wallet) :
    mkSwapRecord wallet tx swap (solAmountOf swap)
        ∈ (detect_large_swaps whaleMinUsd st wallet txns).1
      ↔ whaleMinUsd ≤ solAmountOf swap * 150 := by
  rw [detect_large_swaps_fst]
  exact detectSwapsLoop_mem_iff whaleMinUsd wallet (st wallet) txns tx swap
    hnd htx hsw hsig

/-- Witness for C6: the synthetic 1-SOL swap (1e9 lamports, worth 150 USD at
the fixed price constant) is excluded at a floor of 10,000 USD. -/
theorem detect_large_swaps_usd_floor_witness :
    mkSwapRecord "W" oneSolTx oneSolSwap (solAmountOf oneSolSwap)
      ∉ (detect_large_swaps 10000 (fun _ => ∅) "W" [oneSolTx]).1 := by
  intro hm
  have h := (detect_large_swaps_usd_floor 10000 (fun _ => ∅) "W" [oneSolTx]
    oneSolTx oneSolSwap (by simp) (by simp) rfl (by simp)).mp hm
  norm_num [solAmountOf, oneSolSwap] at h

/-- C7: after a `detect_large_swaps` call whose fetch returned a non-empty
transaction list, the retained signature set of the wallet equals exactly the
signatures of the first 5 fetched transactions (hence has at most 5
elements), and any previously retained signature not among those top 5 has
been dropped. -/
theorem detect_large_swaps_top5 (whaleMinUsd : ℚ) (st : String → Finset String)
    (wallet : String) (txns : List HeliusTxn) (h : txns ≠ []) :
    (detect_large_swaps whaleMinUsd st wallet txns).2 wallet
        = ((txns.take 5).map sigOf).toFinset ∧
    ((detect_large_swaps whaleMinUsd st wallet txns).2 wallet).card ≤ 5 ∧
    (∀ s ∈ st wallet, s ∉ ((txns.take 5).map sigOf).toFinset →
        s ∉ (detect_large_swaps whaleMinUsd st wallet txns).2 wallet) := by
  have hne : ¬ txns.isEmpty := by simpa [List.isEmpty_iff] using h
  have hset : (detect_large_swaps whaleMinUsd st wallet txns).2 wallet
      = ((txns.take 5).map sigOf).toFinset := by
    simp only [detect_large_swaps]
    rw [if_neg hne]
    simp
  refine ⟨hset, ?_, ?_⟩
  · rw [hset]
    calc ((txns.take 5).map sigOf).toFinset.card
        ≤ ((txns.take 5).map sigOf).length := List.toFinset_card_le _
      _ = (txns.take 5).length := List.length_map _ _
      _ ≤ 5 := List.length_take_le 5 txns
  · intro s _ hs
    rw [hset]
    exact hs

/-- Witness for C7 at a concrete one-transaction fetch. -/
theorem detect_large_swaps_top5_witness :
    (detect_large_swaps 10000 (fun _ => ∅) "W" [oneSolTx]).2 "W"
        = (([oneSolTx].take 5).map sigOf).toFinset ∧
    ((detect_large_swaps 10000 (fun _ => ∅) "W" [oneSolTx]).2 "W").card ≤ 5 ∧
    (∀ s ∈ (fun _ => (∅ : Finset String)) "W",
        s ∉ (([oneSolTx].take 5).map sigOf).toFinset →
        s ∉ (detect_large_swaps 10000 (fun _ => ∅) "W" [oneSolTx]).2 "W") :=
  detect_large_swaps_top5 10000 (fun _ => ∅) "W" [oneSolTx] (by simp)

/-- C10: when the fetch for a wallet returns an empty transaction list (which
is also what a fetch error yields), `detect_large_swaps` returns no swaps and
leaves the per-wallet retained signature map completely unchanged. -/
theorem detect_large_swaps_empty_frame (whaleMinUsd : ℚ)
    (st : String → Finset String) (wallet : String) :
    detect_large_swaps whaleMinUsd st wallet [] = ([], st) := rfl

lemma analyze_token_snd_length (parseJson : String → Option Analysis) (now : String)
    (st : List Analysis) (td : TokenData) (r : Except String String) :
    ((analyze_token parseJson now st td r).2).length
      = st.length + (if isParsedCall parseJson (td, r) then 1 else 0) := by
  unfold analyze_token isParsedCall
  match r with
  | .error e => simp
  | .ok content => cases h : parseJson (stripFences content.trim) <;> simp [h]

lemma analyze_token_snd_append (parseJson : String → Option Analysis) (now : String)
    (st : List Analysis) (td : TokenData) (r : Except String String) :
    ∃ t, (analyze_token parseJson now st td r).2 = st ++ t := by
  unfold analyze_token
  match r with
  | .error e => exact ⟨[], by simp⟩
  | .ok content =>
    cases h : parseJson (stripFences content.trim)
    · exact ⟨[], by simp [h]⟩
    · simp only [h]
      exact ⟨_, rfl⟩

/-- C2: whenever obtaining the classification fails (the chat-completion call
raises, modelled by `Except.error`) or parsing it fails (the fence-stripped
response is not a JSON object, modelled by `parseJson` returning `none`),
`analyze_token` returns a Signal with kind SKIP and confidence 0.  The
embedded function is total, so no exception reaches the caller. -/
theorem analyze_token_failure_degrades_to_skip
    (parseJson : String → Option Analysis) (now : String)
    (st : List Analysis) (td : TokenData) :
    (∀ e, (analyze_token parseJson now st td (Except.error e)).1.signal = "SKIP" ∧
          (analyze_token parseJson now st td (Except.error e)).1.confidence = 0) ∧
    (∀ content, parseJson (stripFences content.trim) = none →
          (analyze_token parseJson now st td (Except.ok content)).1.signal = "SKIP" ∧
          (analyze_token parseJson now st td (Except.ok content)).1.confidence = 0) := by
  constructor
  · intro e; constructor <;> rfl
  · intro content h
    constructor <;> simp [analyze_token, h, skipParseFail]

/-- Witness for C2: a concrete malformed (non-JSON) model response degrades to
SKIP with confidence 0. -/
theorem analyze_token_failure_degrades_to_skip_witness :
    (analyze_token (fun _ => none) "2024-01-01T00:00:00" [] {}
        (Except.ok "this is not json")).1.signal = "SKIP" ∧
    (analyze_token (fun _ => none) "2024-01-01T00:00:00" [] {}
        (Except.ok "this is not json")).1.confidence = 0 :=
  (analyze_token_failure_degrades_to_skip (fun _ => none) "2024-01-01T00:00:00"
    [] {}).2 "this is not json" rfl

/-- C9 counterexample: an analysis call on malformed model output creates a
SKIP Signal but does not append it to the history — here one call leaves an
empty history empty, so after n calls the history need not have grown by n. -/
theorem analyze_token_failure_skips_history :
    (analyze_token (fun _ => none) "2024-01-01T00:00:00" [] {}
        (Except.ok "this is not json")).2 = [] := rfl

/-- C9 (amended): the history list only ever grows by appending (no eviction,
unbounded), and after a sequence of `analyze_token` calls it has grown by
exactly the number of successful calls; calls whose classification failed
return their SKIP Signal without appending it. -/
theorem signal_history_growth (parseJson : String → Option Analysis) (now : String)
    (signal_history : List Analysis)
    (calls : List (TokenData × Except String String)) :
    (runAnalyses parseJson now signal_history calls).length
        = signal_history.length + calls.countP (isParsedCall parseJson) ∧
    ∃ appended, runAnalyses parseJson now signal_history calls
        = signal_history ++ appended := by
  induction calls generalizing signal_history with
  | nil => exact ⟨by simp [runAnalyses], [], by simp [runAnalyses]⟩
  | cons c cs ih =>
    have hstep : runAnalyses parseJson now signal_history (c :: cs)
        = runAnalyses parseJson now
            ((analyze_token parseJson now signal_history c.1 c.2).2) cs := by
      simp [runAnalyses]
    obtain ⟨ihlen, tail, ihapp⟩ := ih ((analyze_token parseJson now signal_history c.1 c.2).2)
    constructor
    · rw [hstep, ihlen, analyze_token_snd_length, List.countP_cons]
      cases hc : isParsedCall parseJson c
      · simp [hc]
      · simp [hc]; omega
    · obtain ⟨t1, h1⟩ := analyze_token_snd_append parseJson now signal_history c.1 c.2
      refine ⟨t1 ++ tail, ?_⟩
      rw [hstep, ihapp, h1, List.append_assoc]

end TrustClaw
